import Mathlib

/-!
Shallow embedding of the ingenialink network/session/dictionary code
(src/ingenialink/net.c, src/ingenialink/eth/net.c, src/ingenialink/registers.c)
and proofs about it. Machine integers are modelled as `Nat` with explicit
`% 2 ^ w` at the points where the C code truncates (uint16 assignments,
pointer-to-uint16 conversions, byte extraction).
-/

namespace IngeniaLink

/-! ## CRC (eth/net.c, `init_crcccitt_tab_eth` / `update_crc_ccitt_eth` / `crc_calc_eth`) -/

/-- One round of the inner bit loop of `init_crcccitt_tab_eth` (eth/net.c):
updates the pair of uint16 values `(crc, c)` for one bit. -/
def crcTabRound : Nat × Nat → Nat × Nat
  | (crc, c) =>
    ((if ((crc ^^^ c) &&& 0x8000) ≠ 0 then ((crc <<< 1) ^^^ 0x1021) % 65536
      else (crc <<< 1) % 65536),
     (c <<< 1) % 65536)

/-- Iterate `crcTabRound` (the `for (j=0; j<8; j++)` loop). -/
def crcTabIter : Nat → Nat × Nat → Nat × Nat
  | 0, s => s
  | n + 1, s => crcTabIter n (crcTabRound s)

/-- Entry `i` of the CRC table `crc_tabccitt_eth` as built by
`init_crcccitt_tab_eth` (eth/net.c): `crc = 0`, `c = i << 8`, eight rounds. -/
def crc_tabccitt_eth (i : Nat) : Nat :=
  (crcTabIter 8 (0, (i <<< 8) % 65536)).1

/-- `update_crc_ccitt_eth` (eth/net.c): one byte step of the table-driven CRC,
`(crc << 8) ^ tab[((crc >> 8) ^ c) & 0xFF]` truncated to uint16. -/
def update_crc_ccitt_eth (crc c : Nat) : Nat :=
  ((crc <<< 8) % 65536) ^^^ crc_tabccitt_eth (((crc >>> 8) ^^^ c) &&& 0xFF)

/-- `crc_calc_eth` (eth/net.c) over the byte sequence of the buffer: the C code
walks the word buffer byte by byte (`u16Sz * 2` bytes), seed `0x0000`. -/
def crc_calc_eth (bytes : List Nat) : Nat :=
  bytes.foldl update_crc_ccitt_eth 0

/-- Reference bitwise CRC-CCITT round, following the spec description:
MSB-first, shift left, XOR with polynomial `0x1021` when the top bit is set. -/
def crcSpecRound (crc : Nat) : Nat :=
  if crc &&& 0x8000 ≠ 0 then ((crc <<< 1) ^^^ 0x1021) % 65536
  else (crc <<< 1) % 65536

/-- Iterated reference rounds. -/
def crcSpecRounds : Nat → Nat → Nat
  | 0, crc => crc
  | n + 1, crc => crcSpecRounds n (crcSpecRound crc)

/-- Reference bitwise CRC-CCITT byte step: XOR the byte into the high byte of
the running CRC, then eight MSB-first rounds. -/
def crcSpecByte (crc b : Nat) : Nat :=
  crcSpecRounds 8 (crc ^^^ ((b <<< 8) % 65536))

/-- Reference bitwise CRC-CCITT of a byte list: polynomial `0x1021`, initial
value `0x0000`, MSB-first bit order per byte, no final XOR. This definition
follows the words of the spec (§4.1) and is compared with `crc_calc_eth`. -/
def crc_ccitt_spec (bytes : List Nat) : Nat :=
  bytes.foldl crcSpecByte 0

/-! ## TCP (MCB over Ethernet) frame codec, eth/net.c -/

/-- Modelled from the spec: the header `frame.h` is not under src/; §3 gives
the command codes `READ=1`, `WRITE=2`, `ACK=3`. -/
def ETH_MCB_CMD_READ : Nat := 1

/-- Modelled from the spec: command code WRITE (frame.h missing). -/
def ETH_MCB_CMD_WRITE : Nat := 2

/-- Modelled from the spec: command code ACK (frame.h missing). -/
def ETH_MCB_CMD_ACK : Nat := 3

/-- Modelled from the spec: the default node id constant (header missing); the
claims only relate the emitted word to this constant, so its value is
immaterial. -/
def ETH_MCB_NODE_DFLT : Nat := 0xA

/-- Modelled from the spec: word position of `HDR_H` (frame.h missing, §3). -/
def ETH_MCB_HDR_H_POS : Nat := 0

/-- Modelled from the spec: word position of `HDR_L` (frame.h missing, §3). -/
def ETH_MCB_HDR_L_POS : Nat := 1

/-- Modelled from the spec: first data word position (frame.h missing, §3). -/
def ETH_MCB_DATA_POS : Nat := 2

/-- Modelled from the spec: CRC word position (frame.h missing, §3). -/
def ETH_MCB_CRC_POS : Nat := 6

/-- Modelled from the spec: §3 places `cmd` at bits 1..3 of `HDR_L`
(`(address << 4) | (cmd << 1) | pending`), so the command mask is `0xE`. -/
def ETH_MCB_CMD_MSK : Nat := 0xE

/-- Modelled from the spec: bit position of `cmd` inside `HDR_L` (§3). -/
def ETH_MCB_CMD_POS : Nat := 1

/-- Little-endian byte sequence of a uint16 word buffer, as laid out in
memory on the little-endian host the code targets. -/
def bytesOfWords : List Nat → List Nat
  | [] => []
  | w :: ws => (w % 256) :: ((w / 256) % 256) :: bytesOfWords ws

/-- Value of `memcpy` of a little-endian byte sequence into a zeroed
integer (`uint64_t d = 0; memcpy(&d, data, sz)` in `net_send`). -/
def leBytesToNat : List Nat → Nat
  | [] => 0
  | b :: rest => b % 256 + 256 * leBytesToNat rest

/-- The six header/data words built by `net_send` (eth/net.c): `hdr_h`,
`hdr_l`, and the four uint16 halves of the 64-bit payload union. -/
def net_send_words (subnode address : Nat) (data : List Nat) : List Nat :=
  let cmd := if data.length ≠ 0 then ETH_MCB_CMD_WRITE else ETH_MCB_CMD_READ
  let pending := 0
  let hdr_h := ((ETH_MCB_NODE_DFLT <<< 4) ||| subnode) % 65536
  let hdr_l := (((address <<< 4) ||| (cmd <<< 1)) ||| pending) % 65536
  let d := leBytesToNat data
  [hdr_h, hdr_l, d % 65536, (d >>> 16) % 65536, (d >>> 32) % 65536, (d >>> 48) % 65536]

/-- The complete 7-word frame emitted by `net_send` (eth/net.c): the six
words above followed by the CRC computed over their 12 bytes
(`crc_calc_eth(frame, ETH_MCB_CRC_POS)`). -/
def net_send_frame (subnode address : Nat) (data : List Nat) : List Nat :=
  let ws := net_send_words subnode address data
  ws ++ [crc_calc_eth (bytesOfWords ws)]

/-- Modelled from the spec: `__swap_be_32` (utils.h is not under src/): the
big-endian byte swap of a 32-bit value. -/
def swap_be_32 (x : Nat) : Nat :=
  (x % 256) * 16777216 + (x / 256 % 256) * 65536 + (x / 65536 % 256) * 256 +
    (x / 16777216 % 256)

/-- Result of `net_recv` (eth/net.c): success carrying the bytes copied into
the caller buffer, CRC failure (`IL_EIO`, message "CRC mismatch"), or NACK
failure (`IL_EIO`, message "NACK -> code"). -/
inductive RecvResult where
  | ok (buf : List Nat)
  | errCRC
  | errNACK (code : Nat)
deriving DecidableEq

/-- `net_recv` (eth/net.c) applied to the 7 received uint16 words: validate
the CRC of the first 6 words against word 6, check the ACK command in
`HDR_L`, on NACK read the first 4 data bytes as a big-endian 32-bit error
code, otherwise copy `sz` bytes of payload to the caller. -/
def net_recv (frame : List Nat) (sz : Nat) : RecvResult :=
  let crc := frame.getD 6 0
  let crc_res := crc_calc_eth (bytesOfWords (frame.take 6))
  if crc_res ≠ crc then RecvResult.errCRC
  else
    let hdr_l := frame.getD ETH_MCB_HDR_L_POS 0
    let cmd := (hdr_l &&& ETH_MCB_CMD_MSK) >>> ETH_MCB_CMD_POS
    if cmd ≠ ETH_MCB_CMD_ACK then
      RecvResult.errNACK (swap_be_32 (leBytesToNat (bytesOfWords
        [frame.getD ETH_MCB_DATA_POS 0, frame.getD (ETH_MCB_DATA_POS + 1) 0])))
    else
      RecvResult.ok ((bytesOfWords (frame.drop ETH_MCB_DATA_POS)).take sz)

/-! ## Statusword subscribers (net.c / eth/net.c) -/

/-- A statusword subscriber entry: axis id, callback (`none` models a NULL
function pointer; a `some` value is the identity of the callback), context. -/
structure SwSubscriber where
  id : Nat
  cb : Option Nat
  ctx : Nat
deriving DecidableEq

/-- Modelled from the spec: `STATUSWORD_IDX` (net.h is not under src/); the
well-known statusword index, exact value immaterial to the claims. -/
def STATUSWORD_IDX : Nat := 0x6041

/-- Modelled from the spec: `STATUSWORD_SIDX` (net.h missing), see above. -/
def STATUSWORD_SIDX : Nat := 0x00

/-- Modelled from the spec: `__swap_16` (utils.h missing): 16-bit byte swap. -/
def swap_16 (x : Nat) : Nat := (x % 256) * 256 + (x / 256) % 256

/-- A decoded serial-profile frame as seen through the `il_frame__get_*`
accessors used by net.c (`id`, `idx`, `sidx`, payload bytes; the frame size
accessor returns the payload length). -/
structure SerialFrame where
  id : Nat
  idx : Nat
  sidx : Nat
  data : List Nat
deriving DecidableEq

/-- `process_statusword` (net.c, serial): when the frame carries the
statusword coordinates, deliver the byte-swapped 16-bit value to every
subscriber whose id matches the frame id. The result lists the deliveries
as (subscriber position, value) pairs, in iteration order. -/
def process_statusword_ser (subs : List SwSubscriber) (f : SerialFrame) :
    List (Nat × Nat) :=
  if f.idx = STATUSWORD_IDX ∧ f.sidx = STATUSWORD_SIDX then
    let sw := swap_16 (f.data.getD 0 0 % 256 + 256 * (f.data.getD 1 0 % 256))
    subs.enum.filterMap fun p => if p.2.id = f.id then some (p.1, sw) else none
  else []

/-- Iteration of the subscriber loop in the TCP `process_statusword`
(eth/net.c): deliver to the first entry whose id matches and whose callback
is non-NULL, then `break`. -/
def sw_deliver_first : List SwSubscriber → Nat → Nat → Nat → List (Nat × Nat)
  | [], _, _, _ => []
  | s :: rest, i, id, sw =>
    if s.id = id ∧ s.cb ≠ none then [(i, sw)]
    else sw_deliver_first rest (i + 1) id sw

/-- `process_statusword` (eth/net.c, TCP): the uint16 local `sw` is assigned
the `data` POINTER (`sw = data;`), i.e. the pointer value truncated to 16
bits — not the pointed-to statusword; the loop delivers to at most one
subscriber (it breaks after the first match). `dataAddr` is the address the
caller passes (`&buf` in `listener_eth`). -/
def process_statusword_eth (subs : List SwSubscriber) (subnode dataAddr : Nat) :
    List (Nat × Nat) :=
  sw_deliver_first subs 0 subnode (dataAddr % 65536)

/-! ## Subscriber registry (net.c, `il_net__sw_subscribe`) -/

/-- The subscriber registry state: the stored entries (`cnt` is their
number) and the capacity field `sz`. -/
structure SwSubsState where
  subs : List SwSubscriber
  sz : Nat
deriving DecidableEq

/-- Result of `il_net__sw_subscribe`. -/
inductive SubscribeResult where
  | ok
  | errNoMem
deriving DecidableEq

/-- Modelled from the spec: `SW_SUBS_SZ_DEF` (net.h missing); the initial
registry capacity, exact value immaterial to the claims. -/
def SW_SUBS_SZ_DEF : Nat := 10

/-- The registry as initialized by `il_net_create` (net.c): `cnt = 0`,
`sz = SW_SUBS_SZ_DEF`. -/
def il_net_create_sw_subs : SwSubsState :=
  SwSubsState.mk [] SW_SUBS_SZ_DEF

/-- `il_net__sw_subscribe` (net.c): when `cnt == sz`, reallocate to
`2 * sz * sizeof(*subs)` BYTES and store that byte count into the capacity
field `sz`; then append the entry and increment `cnt`. `sizeofSub` is
`sizeof(il_net_sw_subscriber_t)` and `reallocOk` tells whether `realloc`
succeeds; on failure the registry is left untouched and `IL_ENOMEM` is
returned. -/
def il_net__sw_subscribe (sizeofSub : Nat) (reallocOk : Bool) (st : SwSubsState)
    (id : Nat) (cb : Option Nat) (ctx : Nat) : SubscribeResult × SwSubsState :=
  if st.subs.length = st.sz then
    if reallocOk then
      (SubscribeResult.ok,
        SwSubsState.mk (st.subs ++ [SwSubscriber.mk id cb ctx]) (2 * st.sz * sizeofSub))
    else (SubscribeResult.errNoMem, st)
  else
    (SubscribeResult.ok, SwSubsState.mk (st.subs ++ [SwSubscriber.mk id cb ctx]) st.sz)

/-! ## Synchronous transaction slot (net.c, `process_sync` / `il_net__read`) -/

/-- The single synchronous-transaction slot `net->sync`: matching keys, the
caller buffer contents, the caller buffer size, the optional received-size
destination (`none` models a NULL `recvd` pointer, `some v` a pointer whose
pointee currently holds `v`), and the completion flag. -/
structure SyncSlot where
  id : Nat
  idx : Nat
  sidx : Nat
  buf : List Nat
  sz : Nat
  recvd : Option Nat
  complete : Bool
deriving DecidableEq

/-- `memcpy(dst, src, src-length)` on byte lists: the first bytes of `dst`
are overwritten by `src`, the tail is preserved. -/
def memcpyList (dst src : List Nat) : List Nat :=
  src ++ dst.drop src.length

/-- `process_sync` (net.c): under the sync lock, if the slot is not already
complete and the frame matches (`(slot.id == id || slot.id == 0) && idx ==
slot.idx && sidx == slot.sidx && slot.sz >= sz`), copy the payload into the
caller buffer, record the received size, set `complete = 1` and signal the
condition variable. Returns the new slot and whether the signal fired. -/
def process_sync (slot : SyncSlot) (f : SerialFrame) : SyncSlot × Bool :=
  if slot.complete = false then
    if ((slot.id = f.id) ∨ (slot.id = 0)) ∧ slot.idx = f.idx ∧ slot.sidx = f.sidx ∧
        f.data.length ≤ slot.sz then
      (SyncSlot.mk slot.id slot.idx slot.sidx (memcpyList slot.buf f.data) slot.sz
        (slot.recvd.map fun _ => f.data.length) true, true)
    else (slot, false)
  else (slot, false)

/-- Outcome of the `osal_cond_wait` in `il_net__read`. -/
inductive WaitOutcome where
  | signaled
  | timedout
  | failed
deriving DecidableEq

/-- Result of `il_net__read` (net.c). -/
inductive ReadResult where
  | ok
  | errState
  | errSer
  | errTimedOut
  | errFail
deriving DecidableEq

/-- `il_net__read` (net.c): check the OPERATIVE state, register the slot
(`complete = 0`), send the read request; on send failure jump to the unlock
label; otherwise release the sync lock (during which the listener may
process the frames in `window1`), re-acquire it, and if the slot is not yet
complete wait on the condition (during which the listener may process
`window2`; `w` is the wait verdict). Every path then passes through the
unlock label, which sets `complete = 1` before releasing the sync lock.
Returns the result and the final slot state. -/
def il_net__read_run (operative : Bool) (slotPrev : SyncSlot)
    (id idx sidx : Nat) (buf0 : List Nat) (sz : Nat) (recvd0 : Option Nat)
    (sendOk : Bool) (window1 window2 : List SerialFrame) (w : WaitOutcome) :
    ReadResult × SyncSlot :=
  if operative = false then (ReadResult.errState, slotPrev)
  else
    let slot0 := SyncSlot.mk id idx sidx buf0 sz recvd0 false
    if sendOk = false then
      (ReadResult.errSer, SyncSlot.mk slot0.id slot0.idx slot0.sidx slot0.buf
        slot0.sz slot0.recvd true)
    else
      let slot1 := window1.foldl (fun s f => (process_sync s f).1) slot0
      if slot1.complete then
        (ReadResult.ok, SyncSlot.mk slot1.id slot1.idx slot1.sidx slot1.buf
          slot1.sz slot1.recvd true)
      else
        let slot2 := window2.foldl (fun s f => (process_sync s f).1) slot1
        let res := match w with
          | WaitOutcome.signaled => ReadResult.ok
          | WaitOutcome.timedout => ReadResult.errTimedOut
          | WaitOutcome.failed => ReadResult.errFail
        (res, SyncSlot.mk slot2.id slot2.idx slot2.sidx slot2.buf slot2.sz
          slot2.recvd true)

/-! ## TCP listener and reconnect (eth/net.c, `listener_eth` / `il_net_reconnect`) -/

/-- Environment of one poll iteration of `listener_eth`: whether `net_send`
succeeds, whether `net_recv` succeeds, and the 16-bit statusword the device
returns when the poll succeeds. -/
structure EthPoll where
  sendOk : Bool
  recvOk : Bool
  word : Nat
deriving DecidableEq

/-- Whether a poll iteration failed (send or recv returned an error). -/
def pollFail (p : EthPoll) : Bool := !p.sendOk || !p.recvOk

/-- The `error_count` update of one `listener_eth` iteration: failures
increment, a fully successful poll resets to 0. -/
def error_count_step (ec : Nat) (p : EthPoll) : Nat :=
  if pollFail p then ec + 1 else 0

/-- One body execution of the `listener_eth` poll loop: `buf` is overwritten
by the recv only on a fully successful poll; the iteration then falls
through to `process_statusword(this, 1, &buf)` regardless of the poll
outcome, passing the ADDRESS of `buf`. Returns the new `buf` value, whether
the iteration counts as failed, and the deliveries made. -/
def listener_eth_iter (subs : List SwSubscriber) (bufAddr buf : Nat) (p : EthPoll) :
    Nat × Bool × List (Nat × Nat) :=
  let buf2 := if p.sendOk && p.recvOk then p.word % 65536 else buf
  (buf2, pollFail p, process_statusword_eth subs 1 bufAddr)

/-- The `while (error_count < 10)` loop of `listener_eth`, abstracted over
the finite sequence of observed poll outcomes: returns whether the listener
exits the loop and reaches the reconnect call (`error_count == 10`). An
exhausted outcome list with the loop still running yields `false`. -/
def listener_reaches_reconnect : Nat → List EthPoll → Bool
  | ec, [] => decide (10 ≤ ec ∧ ec = 10)
  | ec, p :: rest =>
    if 10 ≤ ec then decide (ec = 10)
    else listener_reaches_reconnect (error_count_step ec p) rest

/-- A successful dummy poll, used as the `getD` default when indexing poll
sequences (indices in the theorems stay below the list length). -/
def pollDflt : EthPoll := EthPoll.mk true true 0

/-- Environment of one `il_net_reconnect` loop iteration: the
`stop_reconnect` value read in the loop condition, and whether the
`connect()` attempt of the body succeeds. -/
structure ReconnectEnv where
  stopAtCheck : Bool
  connectOk : Bool
deriving DecidableEq

/-- `il_net_reconnect` (eth/net.c): `r = -1; while (r < 0 &&
stop_reconnect == 0) do one connect attempt; r = stop_reconnect; return r`.
The loop is run against the finite list of iteration environments;
`finalStop` is the `stop_reconnect` value read after the loop. `none` means
the loop was still running when the environments ran out. -/
def il_net_reconnect_run : Int → List ReconnectEnv → Bool → Option Int
  | r, [], finalStop => if r < 0 then none else some (if finalStop then 1 else 0)
  | r, e :: rest, finalStop =>
    if r < 0 ∧ e.stopAtCheck = false then
      il_net_reconnect_run (if e.connectOk then 0 else -1) rest finalStop
    else some (if finalStop then 1 else 0)

/-- After `il_net_reconnect` returns `res`, `listener_eth` jumps back to the
top of its loop only when `res == 0` (`if (r == 0) goto restart`). -/
def listener_restarts_after_reconnect (res : Int) : Bool := decide (res = 0)

/-! ## Register labels (registers.c, `il_reg_labels_get`) -/

/-- Modelled from the spec: the error kinds of §7 (err.h is not under src/).
`EFAIL` is the generic failure code `IL_EFAIL` that the source returns;
`EUNKNOWNLANG` stands for the discriminated `ErrUnknownLang` kind the spec
taxonomy lists. -/
inductive IlErrKind where
  | EFAIL
  | EFAULT
  | EIO
  | ETIMEDOUT
  | ESTATE
  | EALREADY
  | ENOMEM
  | EINVAL
  | ENOTSUP
  | EUNKNOWNLANG
deriving DecidableEq

/-- A labels dictionary: association of language tags to strings (the khash
table of registers.c, keys unique). -/
def LabelsMap : Type := List (String × String)

/-- `il_reg_labels_get` (registers.c): look the language up in the hash
table; a miss sets the message "Language not available" and returns the
generic `IL_EFAIL`; a hit stores the value and returns 0. -/
def il_reg_labels_get (labels : LabelsMap) (lang : String) :
    Except IlErrKind String :=
  match List.lookup lang labels with
  | some v => Except.ok v
  | none => Except.error IlErrKind.EFAIL

end IngeniaLink

namespace IngeniaLink

/-! ## CRC equivalence lemmas -/

theorem xor_shiftLeft_distrib (x y n : Nat) :
    (x ^^^ y) <<< n = (x <<< n) ^^^ (y <<< n) := by
  apply Nat.eq_of_testBit_eq
  intro i
  simp only [Nat.testBit_shiftLeft, Nat.testBit_xor]
  cases h : decide (n ≤ i) <;> simp

theorem xor_mod_two_pow_distrib (x y k : Nat) :
    (x ^^^ y) % 2 ^ k = (x % 2 ^ k) ^^^ (y % 2 ^ k) := by
  apply Nat.eq_of_testBit_eq
  intro i
  simp only [Nat.testBit_mod_two_pow, Nat.testBit_xor]
  cases h : decide (i < k) <;> simp

theorem and_top_eq_zero_of_lt {y : Nat} (h : y < 2 ^ 15) : y &&& 0x8000 = 0 := by
  have hb : y.testBit 15 = false := Nat.testBit_lt_two_pow h
  have h8 : (0x8000 : Nat) = 2 ^ 15 := by norm_num
  rw [h8, Nat.and_two_pow, hb]
  rfl

theorem xor_and_top (x y : Nat) (h : y &&& 0x8000 = 0) :
    (x ^^^ y) &&& 0x8000 = x &&& 0x8000 := by
  apply Nat.eq_of_testBit_eq
  intro i
  have hy : (y &&& 0x8000).testBit i = false := by rw [h]; simp
  simp only [Nat.testBit_and, Nat.testBit_xor] at hy ⊢
  cases hx : x.testBit i <;> cases hyy : y.testBit i <;>
    cases hm : (0x8000 : Nat).testBit i <;> simp_all

theorem crcSpecRound_xor (x y : Nat) (hy : y &&& 0x8000 = 0) :
    crcSpecRound (x ^^^ y) = crcSpecRound x ^^^ ((y <<< 1) % 65536) := by
  have h16 : (65536 : Nat) = 2 ^ 16 := by norm_num
  unfold crcSpecRound
  rw [xor_and_top x y hy]
  by_cases hx : x &&& 0x8000 ≠ 0
  · rw [if_pos hx, if_pos hx, xor_shiftLeft_distrib, Nat.xor_assoc,
      Nat.xor_comm (y <<< 1) 0x1021, ← Nat.xor_assoc, h16, xor_mod_two_pow_distrib]
  · rw [if_neg hx, if_neg hx, xor_shiftLeft_distrib, h16, xor_mod_two_pow_distrib]

theorem crcSpecRounds_xor :
    ∀ (k x l : Nat), l < 2 ^ (16 - k) →
      crcSpecRounds k (x ^^^ l) = crcSpecRounds k x ^^^ (l <<< k) := by
  intro k
  induction k with
  | zero => intro x l _; simp only [crcSpecRounds, Nat.shiftLeft_zero]
  | succ n ih =>
    intro x l hl
    have hpow : 2 ^ (16 - (n + 1)) ≤ 2 ^ 15 :=
      Nat.pow_le_pow_right (by norm_num) (by omega)
    have hl15 : l < 2 ^ 15 := by omega
    have hstep : crcSpecRound (x ^^^ l) = crcSpecRound x ^^^ ((l <<< 1) % 65536) :=
      crcSpecRound_xor x l (and_top_eq_zero_of_lt hl15)
    have h1 : l <<< 1 = l * 2 := by rw [Nat.shiftLeft_eq]
    have hshift : (l <<< 1) % 65536 = l <<< 1 := by
      apply Nat.mod_eq_of_lt
      have h15 : (2 : Nat) ^ 15 = 32768 := by norm_num
      omega
    have hlt : l <<< 1 < 2 ^ (16 - n) := by
      rcases Nat.lt_or_ge n 16 with h | h
      · have h2 : 2 ^ (16 - (n + 1)) * 2 ≤ 2 ^ (16 - n) := by
          rw [← Nat.pow_succ]
          exact Nat.pow_le_pow_right (by norm_num) (by omega)
        omega
      · have hn1 : 16 - (n + 1) = 0 := by omega
        rw [hn1, Nat.pow_zero] at hl
        have h0 : l <<< 1 = 0 := by omega
        rw [h0]
        exact Nat.two_pow_pos (16 - n)
    show crcSpecRounds n (crcSpecRound (x ^^^ l)) = crcSpecRounds n (crcSpecRound x) ^^^ l <<< (n + 1)
    rw [hstep, hshift, ih (crcSpecRound x) (l <<< 1) hlt,
      ← Nat.shiftLeft_add, Nat.add_comm 1 n]

set_option maxRecDepth 4000 in
theorem crc_tabccitt_eth_eq :
    ∀ i < 256, crc_tabccitt_eth i = crcSpecRounds 8 ((i <<< 8) % 65536) := by decide

set_option maxRecDepth 4000 in
theorem crc_tabccitt_eth_lt : ∀ i < 256, crc_tabccitt_eth i < 65536 := by decide

theorem byte_xor_decomp (crc b : Nat) :
    crc ^^^ (b <<< 8) = (((crc >>> 8) ^^^ b) <<< 8) ^^^ (crc % 2 ^ 8) := by
  apply Nat.eq_of_testBit_eq
  intro i
  simp only [Nat.testBit_xor, Nat.testBit_shiftLeft, Nat.testBit_shiftRight,
    Nat.testBit_mod_two_pow]
  by_cases h : 8 ≤ i
  · have h2 : ¬ i < 8 := by omega
    have h3 : 8 + (i - 8) = i := by omega
    simp [h, h2, h3, Bool.xor_comm]
  · have h2 : i < 8 := by omega
    simp [h, h2]

theorem update_crc_ccitt_eth_eq_spec (crc b : Nat) (hc : crc < 65536) (hb : b < 256) :
    update_crc_ccitt_eth crc b = crcSpecByte crc b := by
  have hhi : crc >>> 8 < 256 := by
    rw [Nat.shiftRight_eq_div_pow]
    norm_num
    omega
  have hix : (crc >>> 8) ^^^ b < 2 ^ 8 := by
    have h256 : (256 : Nat) = 2 ^ 8 := by norm_num
    rw [h256] at hhi hb
    exact Nat.xor_lt_two_pow hhi hb
  have hix8 : (crc >>> 8) ^^^ b < 256 := by
    have h256 : (256 : Nat) = 2 ^ 8 := by norm_num
    omega
  have hmask : ((crc >>> 8) ^^^ b) &&& 0xFF = (crc >>> 8) ^^^ b := by
    have h255 : (0xFF : Nat) = 2 ^ 8 - 1 := by norm_num
    rw [h255]
    exact Nat.and_pow_two_sub_one_of_lt_two_pow hix
  have hb8 : b <<< 8 < 65536 := by
    have h1 : b <<< 8 = b * 256 := by rw [Nat.shiftLeft_eq]
    omega
  have hbmod : (b <<< 8) % 65536 = b <<< 8 := Nat.mod_eq_of_lt hb8
  have hixs : ((crc >>> 8) ^^^ b) <<< 8 < 65536 := by
    have h1 : ((crc >>> 8) ^^^ b) <<< 8 = ((crc >>> 8) ^^^ b) * 256 := by
      rw [Nat.shiftLeft_eq]
    omega
  have hixmod : (((crc >>> 8) ^^^ b) <<< 8) % 65536 = ((crc >>> 8) ^^^ b) <<< 8 :=
    Nat.mod_eq_of_lt hixs
  have hlow : crc % 2 ^ 8 < 2 ^ (16 - 8) := by
    have h1 : crc % 2 ^ 8 < 2 ^ 8 := Nat.mod_lt crc (by norm_num)
    norm_num at h1 ⊢
    omega
  have hshift8 : (crc <<< 8) % 65536 = (crc % 2 ^ 8) <<< 8 := by
    rw [Nat.shiftLeft_eq, Nat.shiftLeft_eq]
    have h2 : (65536 : Nat) = 2 ^ 8 * 2 ^ 8 := by norm_num
    rw [h2, Nat.mul_mod_mul_right]
  unfold update_crc_ccitt_eth crcSpecByte
  rw [hbmod, byte_xor_decomp crc b, crcSpecRounds_xor 8 _ _ hlow, hmask,
    crc_tabccitt_eth_eq _ hix8, hixmod, hshift8, Nat.xor_comm]

theorem update_crc_ccitt_eth_lt (crc b : Nat) : update_crc_ccitt_eth crc b < 65536 := by
  unfold update_crc_ccitt_eth
  have h1 : (crc <<< 8) % 65536 < 65536 := Nat.mod_lt _ (by norm_num)
  have h2 : crc_tabccitt_eth (((crc >>> 8) ^^^ b) &&& 0xFF) < 65536 := by
    apply crc_tabccitt_eth_lt
    have h255 : (0xFF : Nat) = 2 ^ 8 - 1 := by norm_num
    rw [h255, Nat.and_pow_two_sub_one_eq_mod]
    have h1 : ((crc >>> 8) ^^^ b) % 2 ^ 8 < 2 ^ 8 := Nat.mod_lt _ (by norm_num)
    norm_num at h1 ⊢
    omega
  have h16 : (65536 : Nat) = 2 ^ 16 := by norm_num
  rw [h16] at h1 h2 ⊢
  exact Nat.xor_lt_two_pow h1 h2

theorem crc_calc_eth_foldl_eq (bytes : List Nat) :
    ∀ crc < 65536, (∀ b ∈ bytes, b < 256) →
      bytes.foldl update_crc_ccitt_eth crc = bytes.foldl crcSpecByte crc := by
  induction bytes with
  | nil => intro crc _ _; rfl
  | cons b rest ih =>
    intro crc hc hb
    have hbb : b < 256 := hb b (List.mem_cons_self b rest)
    have hrest : ∀ x ∈ rest, x < 256 := fun x hx => hb x (List.mem_cons_of_mem b hx)
    show rest.foldl update_crc_ccitt_eth (update_crc_ccitt_eth crc b) =
      rest.foldl crcSpecByte (crcSpecByte crc b)
    rw [← update_crc_ccitt_eth_eq_spec crc b hc hbb]
    exact ih (update_crc_ccitt_eth crc b) (update_crc_ccitt_eth_lt crc b) hrest

theorem crc_calc_eth_eq_spec (bytes : List Nat) (hb : ∀ b ∈ bytes, b < 256) :
    crc_calc_eth bytes = crc_ccitt_spec bytes :=
  crc_calc_eth_foldl_eq bytes 0 (by norm_num) hb

end IngeniaLink

namespace IngeniaLink

/-! ## Shared helper lemmas about the sync slot -/

theorem process_sync_of_complete (s : SyncSlot) (g : SerialFrame)
    (h : s.complete = true) : process_sync s g = (s, false) := by
  unfold process_sync
  rw [h]
  simp

/-! ## Claim theorems -/

/-- C2 counterexample: over the 12 input bytes the spec lists, the CRC
implemented by `crc_calc_eth` is `0xF402`, not the claimed `0xD1EF`. -/
theorem crc_vector_claim_refuted :
    crc_calc_eth [0x00, 0x00, 0x00, 0x30, 0x00, 0x00, 0x00, 0x00, 0x00, 0x00,
        0x00, 0x00] = 0xF402 ∧
    ¬ crc_calc_eth [0x00, 0x00, 0x00, 0x30, 0x00, 0x00, 0x00, 0x00, 0x00, 0x00,
        0x00, 0x00] = 0xD1EF := by
  constructor
  · decide
  · decide

/-- C2 (amended): the CRC function is CRC-CCITT with polynomial `0x1021`,
initial value `0x0000`, MSB-first bit order per byte and no final XOR
(`crc_calc_eth` agrees with the bitwise reference `crc_ccitt_spec` on every
byte sequence); for the 12 listed input bytes the computed CRC word equals
`0xF402`; and `net_send` places the CRC of the first 12 frame bytes as the
7th word of the 14-byte frame. -/
theorem crc_calc_eth_is_ccitt :
    (∀ bytes : List Nat, (∀ b ∈ bytes, b < 256) →
      crc_calc_eth bytes = crc_ccitt_spec bytes) ∧
    crc_calc_eth [0x00, 0x00, 0x00, 0x30, 0x00, 0x00, 0x00, 0x00, 0x00, 0x00,
      0x00, 0x00] = 0xF402 ∧
    (∀ subnode address : Nat, ∀ data : List Nat,
      (net_send_frame subnode address data).getD 6 0 =
        crc_calc_eth (bytesOfWords ((net_send_frame subnode address data).take 6))) := by
  refine ⟨crc_calc_eth_eq_spec, by decide, ?_⟩
  intro subnode address data
  rfl

/-- C2 witness: the amended general equivalence evaluated on the concrete
12-byte vector. -/
theorem crc_calc_eth_is_ccitt_witness :
    crc_calc_eth [0x00, 0x00, 0x00, 0x30, 0x00, 0x00, 0x00, 0x00, 0x00, 0x00,
        0x00, 0x00] =
      crc_ccitt_spec [0x00, 0x00, 0x00, 0x30, 0x00, 0x00, 0x00, 0x00, 0x00,
        0x00, 0x00, 0x00] :=
  crc_calc_eth_is_ccitt.1 _ (by decide)

/-- C3: `process_sync` copies the payload into the waiting caller's buffer,
records the received size, sets `complete` and signals exactly when the slot
is not already complete, the id matches or the slot id is the broadcast 0,
`idx`/`sidx` match, and the slot buffer is large enough; a complete slot
accepts no further frame, so no waiter is signaled twice. -/
theorem process_sync_first_writer_wins (slot : SyncSlot) (f : SerialFrame) :
    ((process_sync slot f).2 = true ↔
      (slot.complete = false ∧ ((slot.id = f.id ∨ slot.id = 0) ∧
        slot.idx = f.idx ∧ slot.sidx = f.sidx ∧ f.data.length ≤ slot.sz))) ∧
    ((process_sync slot f).2 = true →
      (process_sync slot f).1 = SyncSlot.mk slot.id slot.idx slot.sidx
        (memcpyList slot.buf f.data) slot.sz
        (slot.recvd.map fun _ => f.data.length) true) ∧
    ((process_sync slot f).2 = false → (process_sync slot f).1 = slot) ∧
    (slot.complete = true → process_sync slot f = (slot, false)) ∧
    ((process_sync slot f).2 = true →
      ∀ g, process_sync (process_sync slot f).1 g = ((process_sync slot f).1, false)) := by
  by_cases hc : slot.complete = false
  · by_cases hm : ((slot.id = f.id ∨ slot.id = 0) ∧ slot.idx = f.idx ∧
      slot.sidx = f.sidx ∧ f.data.length ≤ slot.sz)
    · have hps : process_sync slot f = (SyncSlot.mk slot.id slot.idx slot.sidx
          (memcpyList slot.buf f.data) slot.sz
          (slot.recvd.map fun _ => f.data.length) true, true) := by
        unfold process_sync
        rw [if_pos hc, if_pos hm]
      refine ⟨?_, ?_, ?_, ?_, ?_⟩
      · rw [hps]; simp [hc, hm]
      · intro _; rw [hps]
      · intro hfalse; rw [hps] at hfalse; simp at hfalse
      · intro ht; rw [hc] at ht; simp at ht
      · intro _ g
        rw [hps]
        exact process_sync_of_complete _ g rfl
    · have hps : process_sync slot f = (slot, false) := by
        unfold process_sync
        rw [if_pos hc, if_neg hm]
      refine ⟨?_, ?_, ?_, ?_, ?_⟩
      · rw [hps]; simp [hm]
      · intro ht; rw [hps] at ht; simp at ht
      · intro _; rw [hps]
      · intro ht; rw [hc] at ht; simp at ht
      · intro ht; rw [hps] at ht; simp at ht
  · have hc2 : slot.complete = true := by
      revert hc; cases slot.complete <;> simp
    have hps : process_sync slot f = (slot, false) :=
      process_sync_of_complete slot f hc2
    refine ⟨?_, ?_, ?_, ?_, ?_⟩
    · rw [hps]; simp [hc2]
    · intro ht; rw [hps] at ht; simp at ht
    · intro _; rw [hps]
    · intro _; exact hps
    · intro ht; rw [hps] at ht; simp at ht

/-- C3 witness: a concrete matching frame is accepted and signals, and a
second frame arriving at the then-complete slot is ignored. -/
theorem process_sync_first_writer_wins_witness :
    (process_sync (SyncSlot.mk 1 0x6041 0 [0, 0] 2 (some 0) false)
        (SerialFrame.mk 1 0x6041 0 [0x12, 0x34])).2 = true ∧
    process_sync (process_sync (SyncSlot.mk 1 0x6041 0 [0, 0] 2 (some 0) false)
        (SerialFrame.mk 1 0x6041 0 [0x12, 0x34])).1
        (SerialFrame.mk 1 0x6041 0 [0x56, 0x78]) =
      ((process_sync (SyncSlot.mk 1 0x6041 0 [0, 0] 2 (some 0) false)
        (SerialFrame.mk 1 0x6041 0 [0x12, 0x34])).1, false) := by
  have h := process_sync_first_writer_wins
    (SyncSlot.mk 1 0x6041 0 [0, 0] 2 (some 0) false)
    (SerialFrame.mk 1 0x6041 0 [0x12, 0x34])
  have hsig : (process_sync (SyncSlot.mk 1 0x6041 0 [0, 0] 2 (some 0) false)
      (SerialFrame.mk 1 0x6041 0 [0x12, 0x34])).2 = true :=
    h.1.mpr (by refine ⟨rfl, ?_⟩; refine ⟨Or.inl rfl, rfl, rfl, ?_⟩; decide)
  exact ⟨hsig, h.2.2.2.2 hsig (SerialFrame.mk 1 0x6041 0 [0x56, 0x78])⟩

/-- C4: statusword fan-out evaluated on concrete registries. On the serial
profile every subscriber whose id matches receives the 16-bit value. On the
TCP profile the loop breaks after the first matching subscriber with a
non-NULL callback — the second matching entry receives nothing — and the
value passed is the truncated `data` pointer (the model takes no payload at
all), not the received statusword. -/
theorem process_statusword_fanout_divergence :
    process_statusword_ser
        [SwSubscriber.mk 1 (some 0) 0, SwSubscriber.mk 1 (some 1) 0,
          SwSubscriber.mk 2 (some 2) 0]
        (SerialFrame.mk 1 STATUSWORD_IDX STATUSWORD_SIDX [0x12, 0x34]) =
      [(0, 0x1234), (1, 0x1234)] ∧
    process_statusword_eth
        [SwSubscriber.mk 1 (some 0) 0, SwSubscriber.mk 1 (some 1) 0]
        1 0x7FFC1234 =
      [(0, 0x1234)] := by
  constructor
  · decide
  · decide

/-- C5: `il_net__sw_subscribe` evaluated on concrete registries (entry size
24 bytes). A non-full registry gets the entry appended and the count
incremented with the capacity kept; a full registry whose `realloc` fails is
returned unchanged with `IL_ENOMEM`; but on a successful grow of a full
10-entry registry the capacity field becomes `2 * 10 * 24 = 480` — the
realloc BYTE size — not the doubled entry count 20. -/
theorem sw_subscribe_growth_divergence :
    il_net__sw_subscribe 24 true il_net_create_sw_subs 3 (some 9) 0 =
      (SubscribeResult.ok, SwSubsState.mk [SwSubscriber.mk 3 (some 9) 0] 10) ∧
    il_net__sw_subscribe 24 false
        (SwSubsState.mk (List.replicate 10 (SwSubscriber.mk 5 (some 0) 0)) 10)
        7 (some 1) 0 =
      (SubscribeResult.errNoMem,
        SwSubsState.mk (List.replicate 10 (SwSubscriber.mk 5 (some 0) 0)) 10) ∧
    il_net__sw_subscribe 24 true
        (SwSubsState.mk (List.replicate 10 (SwSubscriber.mk 5 (some 0) 0)) 10)
        7 (some 1) 0 =
      (SubscribeResult.ok,
        SwSubsState.mk (List.replicate 10 (SwSubscriber.mk 5 (some 0) 0) ++
          [SwSubscriber.mk 7 (some 1) 0]) 480) ∧
    ¬ (480 : Nat) = 2 * 10 := by
  refine ⟨by decide, by decide, by decide, by decide⟩

/-- C6: one `listener_eth` poll iteration with a single subscriber for id 1
and the stack buffer at address `0x7FFC1230`. A successful poll reading the
word `0x1234` delivers `0x1230` — the truncated buffer ADDRESS, not the word
read; and a failed poll (send error) still falls through to
`process_statusword` and delivers. -/
theorem listener_eth_statusword_delivery_divergence :
    listener_eth_iter [SwSubscriber.mk 1 (some 0) 0] 0x7FFC1230 0
        (EthPoll.mk true true 0x1234) =
      (0x1234, false, [(0, 0x1230)]) ∧
    ¬ (0x1230 : Nat) = 0x1234 ∧
    listener_eth_iter [SwSubscriber.mk 1 (some 0) 0] 0x7FFC1230 0
        (EthPoll.mk false true 0) =
      (0, true, [(0, 0x1230)]) := by
  refine ⟨by decide, by decide, by decide⟩

/-- C9 counterexample: looking up an absent language returns the generic
failure kind `IL_EFAIL`, not a discriminated `ErrUnknownLang` kind. -/
theorem labels_get_unknownlang_refuted :
    il_reg_labels_get [("en_US", "Speed")] "fr" = Except.error IlErrKind.EFAIL ∧
    IlErrKind.EFAIL ≠ IlErrKind.EUNKNOWNLANG ∧
    ¬ il_reg_labels_get [("en_US", "Speed")] "fr" =
        Except.error IlErrKind.EUNKNOWNLANG := by
  refine ⟨rfl, by decide, ?_⟩
  rw [show il_reg_labels_get [("en_US", "Speed")] "fr" =
    Except.error IlErrKind.EFAIL from rfl]
  simp

/-- C9 (amended): for every labels map and language tag, if the language is
present `il_reg_labels_get` succeeds with the stored string; if absent it
fails with the generic failure kind `IL_EFAIL` (and the diagnostic message),
not with a discriminated `ErrUnknownLang` kind. -/
theorem labels_get_result (labels : LabelsMap) (lang : String) :
    (∀ s, List.lookup lang labels = some s →
      il_reg_labels_get labels lang = Except.ok s) ∧
    (List.lookup lang labels = none →
      il_reg_labels_get labels lang = Except.error IlErrKind.EFAIL) := by
  constructor
  · intro s h
    unfold il_reg_labels_get
    rw [h]
  · intro h
    unfold il_reg_labels_get
    rw [h]

/-- C9 witness: the amended behavior on a concrete one-entry map. -/
theorem labels_get_result_witness :
    il_reg_labels_get [("en_US", "Speed")] "en_US" = Except.ok "Speed" ∧
    il_reg_labels_get [("en_US", "Speed")] "fr" = Except.error IlErrKind.EFAIL :=
  ⟨(labels_get_result [("en_US", "Speed")] "en_US").1 "Speed" rfl,
    (labels_get_result [("en_US", "Speed")] "fr").2 rfl⟩

/-- C10: on every return path of `il_net__read` on the operative network
(success, send failure, timeout, or wait failure) the final slot has
`complete = 1`, so `process_sync` never again copies a later-arriving frame
into the buffer the caller supplied: it returns the slot unchanged and does
not signal. -/
theorem il_net__read_completes_slot (slotPrev : SyncSlot) (id idx sidx : Nat)
    (buf0 : List Nat) (sz : Nat) (recvd0 : Option Nat) (sendOk : Bool)
    (w1 w2 : List SerialFrame) (w : WaitOutcome) :
    ((il_net__read_run true slotPrev id idx sidx buf0 sz recvd0 sendOk w1 w2
      w).2.complete = true) ∧
    (∀ g, process_sync
        (il_net__read_run true slotPrev id idx sidx buf0 sz recvd0 sendOk w1 w2 w).2 g =
      ((il_net__read_run true slotPrev id idx sidx buf0 sz recvd0 sendOk w1 w2 w).2,
        false)) := by
  have hcomp : (il_net__read_run true slotPrev id idx sidx buf0 sz recvd0 sendOk
      w1 w2 w).2.complete = true := by
    unfold il_net__read_run
    simp only [Bool.true_eq_false, if_false]
    split
    · rfl
    · split
      · rfl
      · rfl
  exact ⟨hcomp, fun g => process_sync_of_complete _ g hcomp⟩

end IngeniaLink

namespace IngeniaLink

/-! ## C1: net_recv characterization -/

theorem net_recv_eq (w0 w1 w2 w3 w4 w5 w6 sz : Nat) :
    net_recv [w0, w1, w2, w3, w4, w5, w6] sz =
      if crc_calc_eth (bytesOfWords [w0, w1, w2, w3, w4, w5]) ≠ w6 then
        RecvResult.errCRC
      else if (w1 &&& 0xE) >>> 1 ≠ 3 then
        RecvResult.errNACK (swap_be_32 (leBytesToNat (bytesOfWords [w2, w3])))
      else RecvResult.ok ((bytesOfWords [w2, w3, w4, w5, w6]).take sz) := rfl

theorem nack_code_eq (w2 w3 : Nat) (hw2 : w2 < 65536) (hw3 : w3 < 65536) :
    swap_be_32 (leBytesToNat (bytesOfWords [w2, w3])) =
      ((w2 % 256) * 16777216 + (w2 / 256) * 65536) + ((w3 % 256) * 256 + w3 / 256) := by
  simp only [bytesOfWords, leBytesToNat, swap_be_32]
  omega

/-- C1: for every 7-word frame received by `net_recv`, the call succeeds if
and only if the CRC recomputed over the first 6 words equals word 6 and the
`cmd` field of `HDR_L` equals ACK (3); on CRC mismatch it returns the CRC
error; on a CRC-valid frame whose command is not ACK it returns the NACK
error whose code is the first four payload bytes read big-endian; a frame
with a CRC mismatch is never surfaced as success. -/
theorem net_recv_success_iff_crc_and_ack (w0 w1 w2 w3 w4 w5 w6 sz : Nat)
    (hw2 : w2 < 65536) (hw3 : w3 < 65536) :
    ((∃ b, net_recv [w0, w1, w2, w3, w4, w5, w6] sz = RecvResult.ok b) ↔
      (crc_calc_eth (bytesOfWords [w0, w1, w2, w3, w4, w5]) = w6 ∧
        (w1 &&& 0xE) >>> 1 = 3)) ∧
    (¬ crc_calc_eth (bytesOfWords [w0, w1, w2, w3, w4, w5]) = w6 →
      net_recv [w0, w1, w2, w3, w4, w5, w6] sz = RecvResult.errCRC) ∧
    (crc_calc_eth (bytesOfWords [w0, w1, w2, w3, w4, w5]) = w6 →
      ¬ (w1 &&& 0xE) >>> 1 = 3 →
      net_recv [w0, w1, w2, w3, w4, w5, w6] sz = RecvResult.errNACK
        (((w2 % 256) * 16777216 + (w2 / 256) * 65536) +
          ((w3 % 256) * 256 + w3 / 256))) ∧
    (¬ crc_calc_eth (bytesOfWords [w0, w1, w2, w3, w4, w5]) = w6 →
      ∀ b, ¬ net_recv [w0, w1, w2, w3, w4, w5, w6] sz = RecvResult.ok b) := by
  rw [net_recv_eq]
  by_cases hcrc : crc_calc_eth (bytesOfWords [w0, w1, w2, w3, w4, w5]) = w6
  · have hnn : ¬ crc_calc_eth (bytesOfWords [w0, w1, w2, w3, w4, w5]) ≠ w6 := by
      exact fun h => h hcrc
    rw [if_neg hnn]
    by_cases hcmd : (w1 &&& 0xE) >>> 1 = 3
    · have hnn2 : ¬ (w1 &&& 0xE) >>> 1 ≠ 3 := fun h => h hcmd
      rw [if_neg hnn2]
      refine ⟨?_, ?_, ?_, ?_⟩
      · constructor
        · intro _; exact ⟨hcrc, hcmd⟩
        · intro _; exact ⟨(bytesOfWords [w2, w3, w4, w5, w6]).take sz, rfl⟩
      · intro h; exact absurd hcrc h
      · intro _ h; exact absurd hcmd h
      · intro h; exact absurd hcrc h
    · rw [if_pos hcmd]
      refine ⟨?_, ?_, ?_, ?_⟩
      · constructor
        · intro ⟨b, hb⟩; simp at hb
        · intro ⟨_, hc⟩; exact absurd hc hcmd
      · intro h; exact absurd hcrc h
      · intro _ _; rw [nack_code_eq w2 w3 hw2 hw3]
      · intro h; exact absurd hcrc h
  · rw [if_pos hcrc]
    refine ⟨?_, ?_, ?_, ?_⟩
    · constructor
      · intro ⟨b, hb⟩; simp at hb
      · intro ⟨hc, _⟩; exact absurd hc hcrc
    · intro _; rfl
    · intro hc; exact absurd hc hcrc
    · intro _ b h; simp at h

/-- C1 witness: a CRC-valid ACK frame succeeds, a CRC-valid NACK frame with
payload bytes DE AD BE EF yields the code `0xDEADBEEF`, and a frame with a
zeroed CRC word is rejected with the CRC error. -/
theorem net_recv_success_iff_crc_and_ack_witness :
    (∃ b, net_recv [0xA1, 0x116, 0x1234, 0, 0, 0, 54615] 2 = RecvResult.ok b) ∧
    net_recv [0xA1, 0x114, 0xADDE, 0xEFBE, 0, 0, 47103] 2 =
      RecvResult.errNACK 0xDEADBEEF ∧
    net_recv [0xA1, 0x116, 0x1234, 0, 0, 0, 0] 2 = RecvResult.errCRC := by
  refine ⟨?_, ?_, ?_⟩
  · exact (net_recv_success_iff_crc_and_ack 0xA1 0x116 0x1234 0 0 0 54615 2
      (by decide) (by decide)).1.mpr (by constructor <;> decide)
  · have h := (net_recv_success_iff_crc_and_ack 0xA1 0x114 0xADDE 0xEFBE 0 0
      47103 2 (by decide) (by decide)).2.2.1 (by decide) (by decide)
    exact h.trans (by decide)
  · exact (net_recv_success_iff_crc_and_ack 0xA1 0x116 0x1234 0 0 0 0 2
      (by decide) (by decide)).2.1 (by decide)

end IngeniaLink

namespace IngeniaLink

/-! ## C7: net_send frame layout -/

theorem getD_mod_eq_self (data : List Nat) (hb : ∀ b ∈ data, b < 256) :
    ∀ i, data.getD i 0 % 256 = data.getD i 0 := by
  induction data with
  | nil => intro i; simp [List.getD]
  | cons b rest ih =>
    intro i
    cases i with
    | zero =>
      simp only [List.getD_cons_zero]
      exact Nat.mod_eq_of_lt (hb b (List.mem_cons_self b rest))
    | succ j =>
      simp only [List.getD_cons_succ]
      exact ih (fun x hx => hb x (List.mem_cons_of_mem b hx)) j

theorem leBytesToNat_byte (bs : List Nat) :
    ∀ j, (leBytesToNat bs >>> (8 * j)) % 256 = bs.getD j 0 % 256 := by
  induction bs with
  | nil =>
    intro j
    simp [leBytesToNat, List.getD]
  | cons b rest ih =>
    intro j
    cases j with
    | zero =>
      simp only [leBytesToNat, Nat.mul_zero, Nat.shiftRight_zero, List.getD_cons_zero]
      omega
    | succ j =>
      have hsplit : 8 * (j + 1) = 8 + 8 * j := by omega
      rw [hsplit, Nat.shiftRight_add]
      have hdiv : leBytesToNat (b :: rest) >>> 8 = leBytesToNat rest := by
        rw [Nat.shiftRight_eq_div_pow]
        simp only [leBytesToNat]
        omega
      rw [hdiv, List.getD_cons_succ]
      exact ih j

theorem mod_two_pow_sixteen_split (x : Nat) :
    x % 65536 = x % 256 + 256 * ((x >>> 8) % 256) := by
  rw [Nat.shiftRight_eq_div_pow]
  norm_num
  omega

theorem le_word_extract (bs : List Nat) (hb : ∀ b ∈ bs, b < 256) (k : Nat) :
    (leBytesToNat bs >>> (16 * k)) % 65536 =
      bs.getD (2 * k) 0 + 256 * bs.getD (2 * k + 1) 0 := by
  rw [mod_two_pow_sixteen_split]
  have h2 : leBytesToNat bs >>> (16 * k) >>> 8 =
      leBytesToNat bs >>> (8 * (2 * k + 1)) := by
    rw [← Nat.shiftRight_add]
    congr 1
    omega
  rw [h2]
  have h1 : leBytesToNat bs >>> (16 * k) = leBytesToNat bs >>> (8 * (2 * k)) := by
    congr 1
    omega
  rw [h1, leBytesToNat_byte bs (2 * k), leBytesToNat_byte bs (2 * k + 1),
    getD_mod_eq_self bs hb, getD_mod_eq_self bs hb]

/-- C7: for every `net_send(subnode, address, data, sz)` on the TCP profile
with a byte-valued payload of at most 8 bytes, the emitted 7-word frame has
word 0 equal to `(node_default << 4) | subnode`, word 1 equal to
`(address << 4) | (cmd << 1) | pending` with `cmd = WRITE (2)` when the
payload is nonempty and `READ (1)` when it is empty and the pending bit
always 0, words 2..5 equal to the payload zero-padded to 8 little-endian
bytes, and word 6 equal to the CRC of the first 12 frame bytes. -/
theorem net_send_frame_layout (subnode address : Nat) (data : List Nat)
    (hs : subnode < 256) (_hlen : data.length ≤ 8) (hb : ∀ b ∈ data, b < 256) :
    net_send_frame subnode address data =
      [(ETH_MCB_NODE_DFLT <<< 4) ||| subnode,
       (((address <<< 4) ||| ((if 0 < data.length then 2 else 1) <<< 1)) ||| 0) % 65536,
       data.getD 0 0 + 256 * data.getD 1 0,
       data.getD 2 0 + 256 * data.getD 3 0,
       data.getD 4 0 + 256 * data.getD 5 0,
       data.getD 6 0 + 256 * data.getD 7 0,
       crc_calc_eth (bytesOfWords ((net_send_frame subnode address data).take 6))] := by
  have hhdr : ((ETH_MCB_NODE_DFLT <<< 4) ||| subnode) % 65536 =
      (ETH_MCB_NODE_DFLT <<< 4) ||| subnode := by
    apply Nat.mod_eq_of_lt
    have h1 : (ETH_MCB_NODE_DFLT <<< 4) < 2 ^ 16 := by decide
    have h2 : subnode < 2 ^ 16 := by
      have h3 : (256 : Nat) ≤ 2 ^ 16 := by norm_num
      omega
    have h4 : (65536 : Nat) = 2 ^ 16 := by norm_num
    rw [h4]
    exact Nat.or_lt_two_pow h1 h2
  have hcmd : (if data.length ≠ 0 then ETH_MCB_CMD_WRITE else ETH_MCB_CMD_READ) =
      (if 0 < data.length then 2 else 1) := by
    by_cases hd : data.length = 0
    · rw [if_neg (fun h => h hd), if_neg (by omega)]
      rfl
    · rw [if_pos hd, if_pos (by omega)]
      rfl
  have hw0 : leBytesToNat data % 65536 = data.getD 0 0 + 256 * data.getD 1 0 := by
    have h := le_word_extract data hb 0
    rw [show 16 * 0 = 0 from rfl, Nat.shiftRight_zero] at h
    exact h
  have hw1 : leBytesToNat data >>> 16 % 65536 =
      data.getD 2 0 + 256 * data.getD 3 0 := by
    have h := le_word_extract data hb 1
    rw [show 16 * 1 = 16 from rfl, show 2 * 1 = 2 from rfl,
      show 2 * 1 + 1 = 3 from rfl] at h
    exact h
  have hw2 : leBytesToNat data >>> 32 % 65536 =
      data.getD 4 0 + 256 * data.getD 5 0 := by
    have h := le_word_extract data hb 2
    rw [show 16 * 2 = 32 from rfl, show 2 * 2 = 4 from rfl,
      show 2 * 2 + 1 = 5 from rfl] at h
    exact h
  have hw3 : leBytesToNat data >>> 48 % 65536 =
      data.getD 6 0 + 256 * data.getD 7 0 := by
    have h := le_word_extract data hb 3
    rw [show 16 * 3 = 48 from rfl, show 2 * 3 = 6 from rfl,
      show 2 * 3 + 1 = 7 from rfl] at h
    exact h
  have hwords : net_send_words subnode address data =
      [(ETH_MCB_NODE_DFLT <<< 4) ||| subnode,
       (((address <<< 4) ||| ((if 0 < data.length then 2 else 1) <<< 1)) ||| 0) % 65536,
       data.getD 0 0 + 256 * data.getD 1 0,
       data.getD 2 0 + 256 * data.getD 3 0,
       data.getD 4 0 + 256 * data.getD 5 0,
       data.getD 6 0 + 256 * data.getD 7 0] := by
    show [((ETH_MCB_NODE_DFLT <<< 4) ||| subnode) % 65536,
          (((address <<< 4) |||
            ((if data.length ≠ 0 then ETH_MCB_CMD_WRITE else ETH_MCB_CMD_READ) <<< 1)) ||| 0) % 65536,
          leBytesToNat data % 65536, leBytesToNat data >>> 16 % 65536,
          leBytesToNat data >>> 32 % 65536, leBytesToNat data >>> 48 % 65536] = _
    rw [hcmd, hhdr, hw0, hw1, hw2, hw3]
  have htake : (net_send_frame subnode address data).take 6 =
      net_send_words subnode address data := rfl
  show net_send_words subnode address data ++
      [crc_calc_eth (bytesOfWords (net_send_words subnode address data))] = _
  rw [htake, hwords]
  rfl

/-- C7 witness: the layout theorem evaluated on a concrete 2-byte write to
address `0x20` on subnode 1. -/
theorem net_send_frame_layout_witness :
    net_send_frame 1 0x20 [0x34, 0x12] =
      [0xA1, 0x204, 0x1234, 0, 0, 0, 45583] := by
  have h := net_send_frame_layout 1 0x20 [0x34, 0x12] (by decide) (by decide)
    (by decide)
  rw [h]
  decide

end IngeniaLink

namespace IngeniaLink

/-! ## C8: listener error counting and reconnect -/

theorem lrr_char (ps : List EthPoll) :
    ∀ ec, ec ≤ 10 →
      (listener_reaches_reconnect ec ps = true ↔
        ((10 - ec ≤ ps.length ∧
            ∀ j, j < 10 - ec → pollFail (ps.getD j pollDflt) = true) ∨
          (∃ i, i + 10 ≤ ps.length ∧
            ∀ j, j < 10 → pollFail (ps.getD (i + j) pollDflt) = true))) := by
  induction ps with
  | nil =>
    intro ec hec
    constructor
    · intro h
      have h2 : 10 ≤ ec ∧ ec = 10 := of_decide_eq_true h
      left
      refine ⟨by simp only [List.length_nil]; omega, ?_⟩
      intro j hj
      exact absurd hj (by omega)
    · intro h
      show decide (10 ≤ ec ∧ ec = 10) = true
      rcases h with ⟨hlen, _⟩ | ⟨i, hi, _⟩
      · simp only [List.length_nil] at hlen
        have he : ec = 10 := by omega
        subst he
        decide
      · simp only [List.length_nil] at hi
        exact absurd hi (by omega)
  | cons p rest ih =>
    intro ec hec
    by_cases h10 : 10 ≤ ec
    · have hec10 : ec = 10 := by omega
      subst hec10
      constructor
      · intro _
        left
        refine ⟨by omega, ?_⟩
        intro j hj
        exact absurd hj (by omega)
      · intro _
        show (if 10 ≤ 10 then decide ((10 : Nat) = 10)
          else listener_reaches_reconnect (error_count_step 10 p) rest) = true
        rw [if_pos (by omega)]
        decide
    · have hlt : ec < 10 := by omega
      have hstep : listener_reaches_reconnect ec (p :: rest) =
          listener_reaches_reconnect (error_count_step ec p) rest := by
        show (if 10 ≤ ec then decide (ec = 10)
          else listener_reaches_reconnect (error_count_step ec p) rest) = _
        rw [if_neg h10]
      rw [hstep]
      cases hfail : pollFail p with
      | true =>
        have hs : error_count_step ec p = ec + 1 := by
          simp [error_count_step, hfail]
        rw [hs, ih (ec + 1) (by omega)]
        constructor
        · rintro (⟨hlen, hrun⟩ | ⟨i, hilen, hwin⟩)
          · left
            refine ⟨by simp only [List.length_cons]; omega, ?_⟩
            intro j hj
            cases j with
            | zero => simpa using hfail
            | succ j2 =>
              rw [List.getD_cons_succ]
              exact hrun j2 (by omega)
          · right
            refine ⟨i + 1, by simp only [List.length_cons]; omega, ?_⟩
            intro j hj
            rw [show i + 1 + j = (i + j) + 1 by omega, List.getD_cons_succ]
            exact hwin j hj
        · rintro (⟨hlen, hrun⟩ | ⟨i, hilen, hwin⟩)
          · left
            simp only [List.length_cons] at hlen
            refine ⟨by omega, ?_⟩
            intro j hj
            have h1 := hrun (j + 1) (by omega)
            rw [List.getD_cons_succ] at h1
            exact h1
          · cases i with
            | zero =>
              left
              simp only [List.length_cons] at hilen
              refine ⟨by omega, ?_⟩
              intro j hj
              have h1 := hwin (j + 1) (by omega)
              rw [show (0 : Nat) + (j + 1) = j + 1 by omega,
                List.getD_cons_succ] at h1
              exact h1
            | succ i2 =>
              right
              simp only [List.length_cons] at hilen
              refine ⟨i2, by omega, ?_⟩
              intro j hj
              have h1 := hwin j hj
              rw [show i2 + 1 + j = (i2 + j) + 1 by omega,
                List.getD_cons_succ] at h1
              exact h1
      | false =>
        have hs : error_count_step ec p = 0 := by
          simp [error_count_step, hfail]
        rw [hs, ih 0 (by omega)]
        constructor
        · rintro (⟨hlen, hrun⟩ | ⟨i, hilen, hwin⟩)
          · right
            refine ⟨1, by simp only [List.length_cons]; omega, ?_⟩
            intro j hj
            rw [show (1 : Nat) + j = j + 1 by omega, List.getD_cons_succ]
            exact hrun j (by omega)
          · right
            refine ⟨i + 1, by simp only [List.length_cons]; omega, ?_⟩
            intro j hj
            rw [show i + 1 + j = (i + j) + 1 by omega, List.getD_cons_succ]
            exact hwin j hj
        · rintro (⟨hlen, hrun⟩ | ⟨i, hilen, hwin⟩)
          · exfalso
            have h1 := hrun 0 (by omega)
            rw [List.getD_cons_zero, hfail] at h1
            exact Bool.false_ne_true h1
          · cases i with
            | zero =>
              exfalso
              have h1 := hwin 0 (by omega)
              rw [show (0 : Nat) + 0 = 0 from rfl, List.getD_cons_zero,
                hfail] at h1
              exact Bool.false_ne_true h1
            | succ i2 =>
              right
              simp only [List.length_cons] at hilen
              refine ⟨i2, by omega, ?_⟩
              intro j hj
              have h1 := hwin j hj
              rw [show i2 + 1 + j = (i2 + j) + 1 by omega,
                List.getD_cons_succ] at h1
              exact h1

theorem reconnect_run_of_nonneg (r : Int) (hr : 0 ≤ r) (env : List ReconnectEnv)
    (fs : Bool) : il_net_reconnect_run r env fs = some (if fs then 1 else 0) := by
  cases env with
  | nil =>
    show (if r < 0 then none else some (if fs then 1 else 0)) = _
    rw [if_neg (by omega)]
  | cons e rest =>
    show (if r < 0 ∧ e.stopAtCheck = false then
        il_net_reconnect_run (if e.connectOk then 0 else -1) rest fs
      else some (if fs then 1 else 0)) = _
    rw [if_neg (fun hh => absurd hh.1 (by omega))]

theorem reconnect_run_terminates (env : List ReconnectEnv) (fs : Bool)
    (h : ∃ e ∈ env, e.stopAtCheck = true ∨ e.connectOk = true) :
    ¬ il_net_reconnect_run (-1) env fs = none := by
  induction env with
  | nil => simp at h
  | cons e rest ih =>
    cases hstop : e.stopAtCheck with
    | true =>
      show ¬ (if (-1 : Int) < 0 ∧ e.stopAtCheck = false then
          il_net_reconnect_run (if e.connectOk then 0 else -1) rest fs
        else some (if fs then 1 else 0)) = none
      rw [if_neg (fun hh => by rw [hstop] at hh; exact Bool.noConfusion hh.2)]
      simp
    | false =>
      show ¬ (if (-1 : Int) < 0 ∧ e.stopAtCheck = false then
          il_net_reconnect_run (if e.connectOk then 0 else -1) rest fs
        else some (if fs then 1 else 0)) = none
      rw [if_pos ⟨by omega, hstop⟩]
      cases hconn : e.connectOk with
      | true =>
        rw [if_pos rfl, reconnect_run_of_nonneg 0 (by omega) rest fs]
        simp
      | false =>
        rw [if_neg (by simp)]
        obtain ⟨e2, he2, hp⟩ := h
        rcases List.mem_cons.mp he2 with he | hmem
        · exfalso
          subst he
          rcases hp with h1 | h1
          · rw [hstop] at h1; exact Bool.false_ne_true h1
          · rw [hconn] at h1; exact Bool.false_ne_true h1
        · exact ih ⟨e2, hmem, hp⟩

/-- C8: in the TCP listener, successful polls reset the consecutive-error
counter and failed polls increment it; the listener reaches the reconnect
call exactly when ten consecutive failed polls occur; and the reconnect loop
terminates as soon as an iteration sees the stop flag or a successful
connect — in particular, with `stop_reconnect` set, reconnect returns 1
immediately and the listener does not re-enter its poll loop. -/
theorem listener_reconnect_behavior :
    (∀ (ec : Nat) (p : EthPoll),
      (pollFail p = false → error_count_step ec p = 0) ∧
      (pollFail p = true → error_count_step ec p = ec + 1)) ∧
    (∀ ps : List EthPoll,
      listener_reaches_reconnect 0 ps = true ↔
        ∃ i, i + 10 ≤ ps.length ∧
          ∀ j, j < 10 → pollFail (ps.getD (i + j) pollDflt) = true) ∧
    (∀ (env : List ReconnectEnv) (fs : Bool),
      (∃ e ∈ env, e.stopAtCheck = true ∨ e.connectOk = true) →
      ¬ il_net_reconnect_run (-1) env fs = none) ∧
    (∀ (e : ReconnectEnv) (rest : List ReconnectEnv), e.stopAtCheck = true →
      il_net_reconnect_run (-1) (e :: rest) true = some 1 ∧
      listener_restarts_after_reconnect 1 = false) := by
  refine ⟨?_, ?_, ?_, ?_⟩
  · intro ec p
    constructor
    · intro h; simp [error_count_step, h]
    · intro h; simp [error_count_step, h]
  · intro ps
    have hchar := lrr_char ps 0 (by omega)
    constructor
    · intro h
      rcases hchar.mp h with ⟨hlen, hrun⟩ | hw
      · refine ⟨0, by omega, ?_⟩
        intro j hj
        rw [Nat.zero_add]
        exact hrun j (by omega)
      · exact hw
    · intro hw
      exact hchar.mpr (Or.inr hw)
  · intro env fs h
    exact reconnect_run_terminates env fs h
  · intro e rest hstop
    constructor
    · show (if (-1 : Int) < 0 ∧ e.stopAtCheck = false then
          il_net_reconnect_run (if e.connectOk then 0 else -1) rest true
        else some (if true then 1 else 0)) = some 1
      rw [if_neg (fun hh => by rw [hstop] at hh; exact Bool.noConfusion hh.2)]
      rfl
    · rfl

/-- C8 witness: a failed poll bumps the counter from 5 to 6; ten consecutive
failed polls make the listener reach reconnect; a reconnect iteration that
reads the stop flag returns `some 1` at once. -/
theorem listener_reconnect_behavior_witness :
    error_count_step 5 (EthPoll.mk false true 0) = 6 ∧
    listener_reaches_reconnect 0 (List.replicate 10 (EthPoll.mk false false 0)) = true ∧
    il_net_reconnect_run (-1) [ReconnectEnv.mk true false] true = some 1 := by
  refine ⟨?_, ?_, ?_⟩
  · exact (listener_reconnect_behavior.1 5 (EthPoll.mk false true 0)).2 (by decide)
  · exact (listener_reconnect_behavior.2.1
      (List.replicate 10 (EthPoll.mk false false 0))).mpr
      ⟨0, by decide, by decide⟩
  · exact (listener_reconnect_behavior.2.2.2 (ReconnectEnv.mk true false) []
      rfl).1

end IngeniaLink
